import Mathlib

/-!
Verification of the hush-tab ad-detection repository: a shallow embedding of
the marker-pairing, request-filtering and confidence computations of
src/analyze_diagnostic.py and src/test_nbc_improvements.py, together with a
model of the confidence-scoring core (Weighted Confidence Scorer and
Mute/Unmute State Machine) that the test harness simulates.
-/

/-- A manual ground-truth marker, one entry of `analysis.userMarkers`. -/
structure Marker where
  timestamp : Int
  event : String
deriving DecidableEq, Repr

/-- A captured network request, with the fields the scripts read. -/
structure NetworkRequest where
  timestamp : Int
  url : String
  isAdRelated : Bool
deriving DecidableEq, Repr

/-- An ad period built from a pair of consecutive markers. The field `stop`
embeds the scripts dictionary key `end`, which is a reserved word in Lean. -/
structure AdPeriod where
  start : Int
  stop : Int
  duration : Int
deriving DecidableEq, Repr

/-- Embeds the marker-pairing loop shared by analyze_diagnostic.py (lines
33-40) and test_nbc_improvements.py (lines 25-32):
`for i in range(0, len(markers), 2): if i + 1 < len(markers): append(...)`.
Markers are paired two at a time; a trailing unpaired marker fails the
`i + 1 < len(markers)` guard and is dropped without any error. -/
def adPeriods : List Marker → List AdPeriod
  | a :: b :: rest =>
      { start := a.timestamp, stop := b.timestamp,
        duration := b.timestamp - a.timestamp } :: adPeriods rest
  | _ => []

/-- True when the pattern occurs at the very beginning of the character list. -/
def matchesAt : List Char → List Char → Bool
  | [], _ => true
  | _ :: _, [] => false
  | p :: ps, c :: cs => p == c && matchesAt ps cs

/-- True when the pattern occurs contiguously anywhere in the character list. -/
def hasSubList (pat : List Char) : List Char → Bool
  | [] => matchesAt pat []
  | c :: cs => matchesAt pat (c :: cs) || hasSubList pat cs

/-- Embeds the python substring test `pat in url` used on request URLs. -/
def urlContains (pat s : String) : Bool :=
  hasSubList pat.toList s.toList

/-- The request filter of the harness (test_nbc_improvements.py lines 55-58
and 110-113): requests whose timestamp lies in the closed interval
`start <= r.timestamp <= stop` and that are flagged ad related. -/
def requestsInPeriod (reqs : List NetworkRequest) (start stop : Int) :
    List NetworkRequest :=
  reqs.filter fun r =>
    decide (start ≤ r.timestamp) && decide (r.timestamp ≤ stop) && r.isAdRelated

/-- Embeds the MediaTailor tally of the harness — the count of requests whose
url contains the substring mediatailor, the ad-delivery category. -/
def mediatailorCount (reqs : List NetworkRequest) : Nat :=
  (reqs.filter fun r => urlContains "mediatailor" r.url).length

/-- Embeds the analytics tally of the harness — the count of requests whose
url contains the substring omtrdc.net, the analytics category. -/
def analyticsCount (reqs : List NetworkRequest) : Nat :=
  (reqs.filter fun r => urlContains "omtrdc.net" r.url).length

/-- The weight table of test_nbc_improvements.py (the `WEIGHTS` dict,
lines 35-40). -/
def WEIGHTS : List (String × Int) :=
  [("NETWORK_AD_DETECTED", 45), ("PLAYER_CONTROLS_HIDDEN", 35),
   ("PROGRESS_BAR_HIDDEN", 30), ("BACK_TO_LIVE_HIDDEN", 25)]

/-- The mute threshold of test_nbc_improvements.py (line 42). -/
def MUTE_THRESHOLD : Int := 50

/-- Weight lookup in an association-list weight table; absent names weigh 0. -/
def weightOf (table : List (String × Int)) (name : String) : Int :=
  (table.lookup name).getD 0

/-- Embeds the per-ad-period confidence computation of
test_nbc_improvements.py lines 60-89: the counts, the activation rule
`mediatailor_count > 0 or analytics_count > 5`, and the confidence sum in
which the network signal also stands proxy for the DOM signals
(controls hidden, back to live hidden). -/
def adWindowConfidence (reqs : List NetworkRequest) (start stop : Int) : Int :=
  let rs := requestsInPeriod reqs start stop
  let m := mediatailorCount rs
  let a := analyticsCount rs
  let hasNetworkSignal := decide (m > 0) || decide (a > 5)
  let c1 : Int := if hasNetworkSignal then weightOf WEIGHTS "NETWORK_AD_DETECTED" else 0
  if hasNetworkSignal then
    c1 + weightOf WEIGHTS "PLAYER_CONTROLS_HIDDEN" + weightOf WEIGHTS "BACK_TO_LIVE_HIDDEN"
  else c1

/-- Embeds the content-period confidence computation of
test_nbc_improvements.py lines 110-127: the relaxed activation rule
`mediatailor_count > 5 or analytics_count > 20` and the confidence sum, to
which only the network weight can contribute. -/
def contentGapConfidence (reqs : List NetworkRequest) (start stop : Int) : Int :=
  let rs := requestsInPeriod reqs start stop
  let m := mediatailorCount rs
  let a := analyticsCount rs
  let hasNetworkSignal := decide (m > 5) || decide (a > 20)
  if hasNetworkSignal then weightOf WEIGHTS "NETWORK_AD_DETECTED" else 0

/-- The content gaps the harness actually examines
(test_nbc_improvements.py lines 106-108): only when there are at least two ad
periods, and then only the single gap from the end of the first period to the
start of the second. -/
def checkedGaps (periods : List AdPeriod) : List (Int × Int) :=
  if periods.length ≥ 2 then
    match periods with
    | p0 :: p1 :: _ => [(p0.stop, p1.start)]
    | _ => []
  else []

/-- Stated from the words of the spec, for comparison with `checkedGaps`: the
false-positive check is to run on every content-only gap between consecutive
ad windows. -/
def specAllGaps : List AdPeriod → List (Int × Int)
  | p :: q :: rest => (p.stop, q.start) :: specAllGaps (q :: rest)
  | _ => []

/-- Sum of all weights in a weight table. -/
def sumWeights (table : List (String × Int)) : Int :=
  (table.map Prod.snd).sum

/-- Modelled from the spec: the raw score of the Weighted Confidence Scorer
(section 4.3), the sum of the configured weights of the active signals. The
scorer itself lives in content-nbc.js, which is not part of this snapshot;
the harness only simulates it and proxies DOM signals with the network
signal. -/
def rawScore (table : List (String × Int)) (active : List String) : Int :=
  (active.map (weightOf table)).sum

/-- Modelled from the spec: ConfidenceScore, the raw score clamped to the
interval from 0 to the sum of all weights (section 4.3). -/
def confidenceScore (table : List (String × Int)) (active : List String) : Int :=
  max 0 (min (rawScore table active) (sumWeights table))

/-- Modelled from the spec: the activation rule for NETWORK_AD_DETECTED
(section 4.3) — active iff the ad-delivery request count is positive or the
analytics request count exceeds the burst threshold (default 5). -/
def networkAdDetectedActive (burst adDelivery analytics : Nat) : Bool :=
  decide (adDelivery > 0) || decide (analytics > burst)

/-- Modelled from the spec: the active signal set of a window — the network
signal when its activation rule fires, plus the DOM-derived signals observed
true inside the window. -/
def activeSignals (burst adDelivery analytics : Nat) (domSignals : List String) :
    List String :=
  (if networkAdDetectedActive burst adDelivery analytics
    then ["NETWORK_AD_DETECTED"] else []) ++ domSignals

/-- The two states of the mute machine. -/
inductive MuteState where
  | UNMUTED
  | MUTED
deriving DecidableEq, Repr

/-- Modelled from the spec: one step of the Mute/Unmute State Machine
(section 4.4). UNMUTED goes to MUTED when the score reaches the mute
threshold; MUTED goes to UNMUTED when the score falls below the unmute
threshold; otherwise the state is unchanged and no transition is recorded.
The second component is the recorded transition, when one fires. -/
def stepState (muteThreshold unmuteThreshold : Int) (s : MuteState) (score : Int) :
    MuteState × Option (MuteState × MuteState) :=
  match s with
  | .UNMUTED =>
      if muteThreshold ≤ score then (.MUTED, some (.UNMUTED, .MUTED))
      else (.UNMUTED, none)
  | .MUTED =>
      if score < unmuteThreshold then (.UNMUTED, some (.MUTED, .UNMUTED))
      else (.MUTED, none)

/-- Modelled from the spec: the run of the state machine over a sequence of
confidence scores, collecting the recorded transitions in order. -/
def runMachine (muteThreshold unmuteThreshold : Int) (s : MuteState) :
    List Int → List (MuteState × MuteState)
  | [] => []
  | score :: rest =>
      let st := stepState muteThreshold unmuteThreshold s score
      st.2.toList ++ runMachine muteThreshold unmuteThreshold st.1 rest

/-- Claim C1: the code evaluated at a failing input. At the odd marker list
[start at 0 ms, end at 10000 ms, start at 20000 ms] the pairing loop builds
one window from the first pair and silently drops the trailing marker; no
UnpairedMarkerError (or any error) exists in the scripts, contradicting the
documented requirement that an odd marker count must fail loudly. -/
theorem C1_silent_truncation :
    adPeriods [⟨0, "ad-start"⟩, ⟨10000, "ad-end"⟩, ⟨20000, "ad-start"⟩] =
      [⟨0, 10000, 10000⟩] := by
  decide

/-- Claim C6: in marker-paired mode, an ordered marker list of even length
2 * n yields exactly n windows, the i-th starting at the timestamp of marker
2 * i and ending at the timestamp of marker 2 * i + 1. -/
theorem C6_marker_pairing (markers : List Marker) (n : Nat)
    (h : markers.length = 2 * n) :
    (adPeriods markers).length = n ∧
    ∀ i : Nat,
      ((adPeriods markers).get? i).map AdPeriod.start =
        (markers.get? (2 * i)).map Marker.timestamp ∧
      ((adPeriods markers).get? i).map AdPeriod.stop =
        (markers.get? (2 * i + 1)).map Marker.timestamp := by
  induction n generalizing markers with
  | zero =>
      have hm : markers = [] := List.length_eq_zero.mp (by omega)
      subst hm
      simp [adPeriods]
  | succ n ih =>
      cases markers with
      | nil => simp at h
      | cons a t =>
          cases t with
          | nil => simp at h; omega
          | cons b rest =>
              have hr : rest.length = 2 * n := by
                simp [List.length] at h
                omega
              obtain ⟨ihl, ihg⟩ := ih rest hr
              refine ⟨by simp [adPeriods, ihl], ?_⟩
              intro i
              cases i with
              | zero => simp [adPeriods]
              | succ j =>
                  have e1 : 2 * (j + 1) = 2 * j + 1 + 1 := by omega
                  rw [e1]
                  simpa [adPeriods] using ihg j

/-- Witness for claim C6 at the concrete two-marker list. -/
theorem C6_marker_pairing_witness :
    ([Marker.mk 0 "ad-start", Marker.mk 9000 "ad-end"] : List Marker).length = 2 * 1 ∧
    (adPeriods [Marker.mk 0 "ad-start", Marker.mk 9000 "ad-end"]).length = 1 ∧
    ((adPeriods [Marker.mk 0 "ad-start", Marker.mk 9000 "ad-end"]).get? 0).map AdPeriod.start =
      (([Marker.mk 0 "ad-start", Marker.mk 9000 "ad-end"] : List Marker).get? 0).map Marker.timestamp :=
  ⟨by decide,
   (C6_marker_pairing [Marker.mk 0 "ad-start", Marker.mk 9000 "ad-end"] 1 (by decide)).1,
   ((C6_marker_pairing [Marker.mk 0 "ad-start", Marker.mk 9000 "ad-end"] 1 (by decide)).2 0).1⟩

/-- Every window built from a chain-ordered marker list has stop at least
start, and consecutive windows are separated: each stop is at most the next
start. -/
theorem adPeriods_mono :
    ∀ l : List Marker,
      List.Chain' (fun a b : Marker => a.timestamp ≤ b.timestamp) l →
      (∀ p ∈ adPeriods l, p.start ≤ p.stop) ∧
      List.Chain' (fun p q : AdPeriod => p.stop ≤ q.start) (adPeriods l)
  | [] => fun _ => by simp [adPeriods]
  | [a] => fun _ => by simp [adPeriods]
  | a :: b :: rest => fun h => by
      obtain ⟨hab, hbr⟩ := List.chain'_cons.mp h
      have ih := adPeriods_mono rest (List.Chain'.tail hbr)
      have hshape : adPeriods (a :: b :: rest) =
          ⟨a.timestamp, b.timestamp, b.timestamp - a.timestamp⟩ :: adPeriods rest := rfl
      constructor
      · intro p hp
        rw [hshape] at hp
        rcases List.mem_cons.mp hp with hp | hp
        · subst hp; exact hab
        · exact ih.1 p hp
      · rw [hshape]
        refine List.chain'_cons'.mpr ⟨?_, ih.2⟩
        intro q hq
        cases rest with
        | nil => simp [adPeriods] at hq
        | cons c t =>
            cases t with
            | nil => simp [adPeriods] at hq
            | cons d r =>
                have hbc : b.timestamp ≤ c.timestamp := (List.chain'_cons.mp hbr).1
                simp only [adPeriods, List.head?_cons, Option.mem_def, Option.some.injEq] at hq
                subst hq
                exact hbc

/-- Claim C7: for a marker sequence with non-decreasing timestamps, every ad
window the builder produces satisfies stop at least start, and the windows
are pairwise non-overlapping: the stop of each window is at most the start of
the next. -/
theorem C7_windows_wellformed (markers : List Marker)
    (h : List.Chain' (fun a b : Marker => a.timestamp ≤ b.timestamp) markers) :
    (∀ p ∈ adPeriods markers, p.start ≤ p.stop) ∧
    List.Chain' (fun p q : AdPeriod => p.stop ≤ q.start) (adPeriods markers) :=
  adPeriods_mono markers h

/-- Witness for claim C7 at a concrete sorted four-marker list. -/
theorem C7_windows_wellformed_witness :
    (AdPeriod.mk 0 5 5).start ≤ (AdPeriod.mk 0 5 5).stop ∧
    List.Chain' (fun p q : AdPeriod => p.stop ≤ q.start)
      (adPeriods [Marker.mk 0 "a", Marker.mk 5 "b", Marker.mk 7 "c", Marker.mk 9 "d"]) :=
  ⟨(C7_windows_wellformed
      [Marker.mk 0 "a", Marker.mk 5 "b", Marker.mk 7 "c", Marker.mk 9 "d"]
      (by simp [List.chain'_cons])).1 ⟨0, 5, 5⟩ (by decide),
   (C7_windows_wellformed
      [Marker.mk 0 "a", Marker.mk 5 "b", Marker.mk 7 "c", Marker.mk 9 "d"]
      (by simp [List.chain'_cons])).2⟩

/-- Counterexample for claim C2: a single ad-delivery (MediaTailor) request
inside an interval. Scored as a content gap, the harness assigns confidence 0
(its gap rule needs more than 5 such requests), although the ad-delivery
count is positive; scored as an ad window, the very same interval activates
the network signal. The gap rule is therefore not the window rule. -/
theorem C2_counterexample :
    0 < mediatailorCount (requestsInPeriod
      [⟨100, "ads.mediatailor.amazonaws.com/v1/seg", true⟩] 0 200) ∧
    contentGapConfidence
      [⟨100, "ads.mediatailor.amazonaws.com/v1/seg", true⟩] 0 200 = 0 ∧
    0 < adWindowConfidence
      [⟨100, "ads.mediatailor.amazonaws.com/v1/seg", true⟩] 0 200 := by
  decide

/-- Claim C2 as amended: in ad windows the harness activates the network
signal (and hence scores positive confidence) iff the ad-delivery count is
positive or the analytics count exceeds 5, while in the content gap it
instead requires the ad-delivery count to exceed 5 or the analytics count to
exceed 20. -/
theorem C2_activation_rules (reqs : List NetworkRequest) (start stop : Int) :
    (0 < adWindowConfidence reqs start stop ↔
      mediatailorCount (requestsInPeriod reqs start stop) > 0 ∨
      analyticsCount (requestsInPeriod reqs start stop) > 5) ∧
    (0 < contentGapConfidence reqs start stop ↔
      mediatailorCount (requestsInPeriod reqs start stop) > 5 ∨
      analyticsCount (requestsInPeriod reqs start stop) > 20) := by
  have w1 : weightOf WEIGHTS "NETWORK_AD_DETECTED" = 45 := by decide
  have w2 : weightOf WEIGHTS "PLAYER_CONTROLS_HIDDEN" = 35 := by decide
  have w3 : weightOf WEIGHTS "BACK_TO_LIVE_HIDDEN" = 25 := by decide
  constructor
  · cases hc : decide (mediatailorCount (requestsInPeriod reqs start stop) > 0) ||
        decide (analyticsCount (requestsInPeriod reqs start stop) > 5) with
    | false =>
        simp only [Bool.or_eq_false_iff, decide_eq_false_iff_not] at hc
        simp [adWindowConfidence, hc, w1, w2, w3]
    | true =>
        simp only [Bool.or_eq_true, decide_eq_true_eq] at hc
        simp [adWindowConfidence, hc, w1, w2, w3]
  · cases hc : decide (mediatailorCount (requestsInPeriod reqs start stop) > 5) ||
        decide (analyticsCount (requestsInPeriod reqs start stop) > 20) with
    | false =>
        simp only [Bool.or_eq_false_iff, decide_eq_false_iff_not] at hc
        simp [contentGapConfidence, hc, w1]
    | true =>
        simp only [Bool.or_eq_true, decide_eq_true_eq] at hc
        simp [contentGapConfidence, hc, w1]

/-- Counterexample for claim C8: with three ad windows the harness examines
only the gap between the first two; the gap between the second and the third
window, here (30, 40), is never checked. -/
theorem C8_counterexample :
    checkedGaps [⟨0, 10, 10⟩, ⟨20, 30, 10⟩, ⟨40, 50, 10⟩] = [(10, 20)] ∧
    specAllGaps [⟨0, 10, 10⟩, ⟨20, 30, 10⟩, ⟨40, 50, 10⟩] = [(10, 20), (30, 40)] ∧
    checkedGaps [⟨0, 10, 10⟩, ⟨20, 30, 10⟩, ⟨40, 50, 10⟩] ≠
      specAllGaps [⟨0, 10, 10⟩, ⟨20, 30, 10⟩, ⟨40, 50, 10⟩] := by
  decide

/-- Claim C8 as amended: whenever at least two ad windows exist, the harness
computes its false-positive check on exactly one content gap, the one from
the end of the first window to the start of the second. -/
theorem C8_first_gap_only (p0 p1 : AdPeriod) (rest : List AdPeriod) :
    checkedGaps (p0 :: p1 :: rest) = [(p0.stop, p1.start)] := by
  have hlen : (p0 :: p1 :: rest).length ≥ 2 := by
    simp [List.length_cons]
  unfold checkedGaps
  rw [if_pos hlen]

/-- Claim C4: for every weight table with non-negative weights and every
active signal set, the clamped confidence score lies between 0 and the sum of
all weights in the table. -/
theorem C4_score_bounded (table : List (String × Int)) (active : List String)
    (h : ∀ p ∈ table, 0 ≤ p.2) :
    0 ≤ confidenceScore table active ∧
    confidenceScore table active ≤ sumWeights table := by
  have hS : 0 ≤ sumWeights table := by
    apply List.sum_nonneg
    intro x hx
    obtain ⟨p, hp, rfl⟩ := List.mem_map.mp hx
    exact h p hp
  unfold confidenceScore
  exact ⟨le_max_left 0 _, max_le hS (min_le_right _ _)⟩

/-- Witness for claim C4 at the default weight table and a concrete active
set. -/
theorem C4_score_bounded_witness :
    0 ≤ confidenceScore WEIGHTS ["NETWORK_AD_DETECTED", "PROGRESS_BAR_HIDDEN"] ∧
    confidenceScore WEIGHTS ["NETWORK_AD_DETECTED", "PROGRESS_BAR_HIDDEN"] ≤
      sumWeights WEIGHTS :=
  C4_score_bounded WEIGHTS ["NETWORK_AD_DETECTED", "PROGRESS_BAR_HIDDEN"]
    (by decide)

/-- Claim C5: monotonicity of the scorer — over a weight table with
non-negative weights, activating one further signal of non-negative weight
never decreases the confidence score. -/
theorem C5_monotone (table : List (String × Int)) (active : List String)
    (s : String) (hT : ∀ p ∈ table, 0 ≤ p.2) (hs : 0 ≤ weightOf table s) :
    confidenceScore table active ≤ confidenceScore table (s :: active) := by
  have hraw : rawScore table active ≤ rawScore table (s :: active) := by
    simp only [rawScore, List.map_cons, List.sum_cons]
    exact le_add_of_nonneg_left hs
  unfold confidenceScore
  exact max_le_max le_rfl (min_le_min hraw le_rfl)

/-- Witness for claim C5 at the default weight table. -/
theorem C5_monotone_witness :
    confidenceScore WEIGHTS ["PLAYER_CONTROLS_HIDDEN"] ≤
      confidenceScore WEIGHTS ["NETWORK_AD_DETECTED", "PLAYER_CONTROLS_HIDDEN"] :=
  C5_monotone WEIGHTS ["PLAYER_CONTROLS_HIDDEN"] "NETWORK_AD_DETECTED"
    (by decide) (by decide)

/-- Claim C3: under the default configuration, a window whose only evidence
is 6 analytics requests (burst threshold 5) and no DOM signal scores exactly
45 and from UNMUTED the machine stays UNMUTED; with any one additional
weight-35 DOM signal the score is 80 and the machine moves to MUTED. -/
theorem C3_analytics_burst (s : String) (hw : weightOf WEIGHTS s = 35)
    (hs : s ≠ "NETWORK_AD_DETECTED") :
    confidenceScore WEIGHTS (activeSignals 5 0 6 []) = 45 ∧
    (stepState MUTE_THRESHOLD MUTE_THRESHOLD .UNMUTED
      (confidenceScore WEIGHTS (activeSignals 5 0 6 []))).1 = .UNMUTED ∧
    confidenceScore WEIGHTS (activeSignals 5 0 6 [s]) = 80 ∧
    (stepState MUTE_THRESHOLD MUTE_THRESHOLD .UNMUTED
      (confidenceScore WEIGHTS (activeSignals 5 0 6 [s]))).1 = .MUTED := by
  have w1 : weightOf WEIGHTS "NETWORK_AD_DETECTED" = 45 := by decide
  have hS : sumWeights WEIGHTS = 135 := by decide
  have hact : activeSignals 5 0 6 [s] = ["NETWORK_AD_DETECTED", s] := by
    simp [activeSignals, networkAdDetectedActive]
  have hscore : confidenceScore WEIGHTS (activeSignals 5 0 6 [s]) = 80 := by
    rw [hact]
    simp only [confidenceScore, rawScore, List.map_cons, List.map_nil,
      List.sum_cons, List.sum_nil, w1, hw, hS]
    omega
  refine ⟨by decide, by decide, hscore, ?_⟩
  rw [hscore]
  decide

/-- Witness for claim C3 with PLAYER_CONTROLS_HIDDEN as the weight-35 DOM
signal. -/
theorem C3_analytics_burst_witness :
    confidenceScore WEIGHTS (activeSignals 5 0 6 []) = 45 ∧
    confidenceScore WEIGHTS (activeSignals 5 0 6 ["PLAYER_CONTROLS_HIDDEN"]) = 80 ∧
    (stepState MUTE_THRESHOLD MUTE_THRESHOLD .UNMUTED
      (confidenceScore WEIGHTS
        (activeSignals 5 0 6 ["PLAYER_CONTROLS_HIDDEN"]))).1 = .MUTED :=
  ⟨(C3_analytics_burst "PLAYER_CONTROLS_HIDDEN" (by decide) (by decide)).1,
   (C3_analytics_burst "PLAYER_CONTROLS_HIDDEN" (by decide) (by decide)).2.2.1,
   (C3_analytics_burst "PLAYER_CONTROLS_HIDDEN" (by decide) (by decide)).2.2.2⟩

/-- Invariant of a machine run: every recorded transition changes state, the
first recorded transition (if any) leaves the starting state, and consecutive
recorded transitions chain (each one starts where the previous one ended). -/
theorem runMachine_invariant (m u : Int) :
    ∀ (scores : List Int) (s : MuteState),
      (∀ tr ∈ runMachine m u s scores, tr.1 ≠ tr.2) ∧
      (∀ tr, (runMachine m u s scores).head? = some tr → tr.1 = s) ∧
      List.Chain' (fun t1 t2 : MuteState × MuteState => t1.2 = t2.1)
        (runMachine m u s scores)
  | [], s => by simp [runMachine]
  | score :: rest, s => by
      have ihU := runMachine_invariant m u rest .UNMUTED
      have ihM := runMachine_invariant m u rest .MUTED
      cases s with
      | UNMUTED =>
          by_cases hms : m ≤ score
          · have hrun : runMachine m u .UNMUTED (score :: rest) =
                (.UNMUTED, .MUTED) :: runMachine m u .MUTED rest := by
              simp [runMachine, stepState, hms]
            rw [hrun]
            refine ⟨?_, ?_, ?_⟩
            · intro tr htr
              rcases List.mem_cons.mp htr with h | h
              · subst h; simp
              · exact ihM.1 tr h
            · intro tr htr
              simp only [List.head?_cons, Option.some.injEq] at htr
              rw [← htr]
            · refine List.chain'_cons'.mpr ⟨?_, ihM.2.2⟩
              intro t2 ht2
              exact (ihM.2.1 t2 (Option.mem_def.mp ht2)).symm
          · have hrun : runMachine m u .UNMUTED (score :: rest) =
                runMachine m u .UNMUTED rest := by
              simp [runMachine, stepState, hms]
            rw [hrun]
            exact ihU
      | MUTED =>
          by_cases hus : score < u
          · have hrun : runMachine m u .MUTED (score :: rest) =
                (.MUTED, .UNMUTED) :: runMachine m u .UNMUTED rest := by
              simp [runMachine, stepState, hus]
            rw [hrun]
            refine ⟨?_, ?_, ?_⟩
            · intro tr htr
              rcases List.mem_cons.mp htr with h | h
              · subst h; simp
              · exact ihU.1 tr h
            · intro tr htr
              simp only [List.head?_cons, Option.some.injEq] at htr
              rw [← htr]
            · refine List.chain'_cons'.mpr ⟨?_, ihU.2.2⟩
              intro t2 ht2
              exact (ihU.2.1 t2 (Option.mem_def.mp ht2)).symm
          · have hrun : runMachine m u .MUTED (score :: rest) =
                runMachine m u .MUTED rest := by
              simp [runMachine, stepState, hus]
            rw [hrun]
            exact ihM

/-- Claim C9: over every score sequence, the recorded transitions strictly
alternate — no transition is ever recorded from a state to itself, and each
recorded transition starts in the state the previous one ended in. -/
theorem C9_no_self_transition (m u : Int) (s : MuteState) (scores : List Int) :
    (∀ tr ∈ runMachine m u s scores, tr.1 ≠ tr.2) ∧
    List.Chain' (fun t1 t2 : MuteState × MuteState => t1.2 = t2.1)
      (runMachine m u s scores) :=
  ⟨(runMachine_invariant m u scores s).1, (runMachine_invariant m u scores s).2.2⟩

/-- Witness for claim C9 on a concrete run that records two transitions. -/
theorem C9_no_self_transition_witness :
    runMachine 50 50 .UNMUTED [80, 10] =
      [(.UNMUTED, .MUTED), (.MUTED, .UNMUTED)] ∧
    (MuteState.UNMUTED, MuteState.MUTED).1 ≠ (MuteState.UNMUTED, MuteState.MUTED).2 :=
  ⟨by decide,
   (C9_no_self_transition 50 50 .UNMUTED [80, 10]).1 (.UNMUTED, .MUTED) (by decide)⟩

/-- Claim C10: window membership is boundary inclusive at both ends, so an ad
related event timestamped exactly at the shared boundary between an ad window
and the following content gap is counted in both intervals. -/
theorem C10_boundary_inclusive (reqs : List NetworkRequest)
    (r : NetworkRequest) (p q : AdPeriod) (hr : r ∈ reqs)
    (had : r.isAdRelated = true) (hps : p.start ≤ p.stop)
    (hpq : p.stop ≤ q.start) :
    (r.timestamp = p.start ∨ r.timestamp = p.stop →
      r ∈ requestsInPeriod reqs p.start p.stop) ∧
    (r.timestamp = p.stop →
      r ∈ requestsInPeriod reqs p.start p.stop ∧
      r ∈ requestsInPeriod reqs p.stop q.start) := by
  have hmem : ∀ lo hi : Int, lo ≤ r.timestamp → r.timestamp ≤ hi →
      r ∈ requestsInPeriod reqs lo hi := by
    intro lo hi h1 h2
    refine List.mem_filter.mpr ⟨hr, ?_⟩
    simp [h1, h2, had]
  constructor
  · rintro (h | h)
    · exact hmem _ _ (le_of_eq h.symm) (by omega)
    · exact hmem _ _ (by omega) (le_of_eq h)
  · intro h
    exact ⟨hmem _ _ (by omega) (le_of_eq h), hmem _ _ (le_of_eq h.symm) (by omega)⟩

/-- Witness for claim C10: a request at timestamp 10, the shared boundary of
the window (0, 10) and the gap (10, 15), is a member of both filtered
request lists. -/
theorem C10_boundary_inclusive_witness :
    NetworkRequest.mk 10 "ads.mediatailor.amazonaws.com/x" true ∈
      requestsInPeriod [NetworkRequest.mk 10 "ads.mediatailor.amazonaws.com/x" true] 0 10 ∧
    NetworkRequest.mk 10 "ads.mediatailor.amazonaws.com/x" true ∈
      requestsInPeriod [NetworkRequest.mk 10 "ads.mediatailor.amazonaws.com/x" true] 10 15 :=
  (C10_boundary_inclusive
      [NetworkRequest.mk 10 "ads.mediatailor.amazonaws.com/x" true]
      (NetworkRequest.mk 10 "ads.mediatailor.amazonaws.com/x" true)
      ⟨0, 10, 10⟩ ⟨15, 20, 5⟩
      (List.mem_singleton.mpr rfl) rfl (by decide) (by decide)).2 rfl
